import Mathlib

/-!
Shallow embedding of the buffer-source playback engine of this repository
(`src/node/audio_buffer_source.rs`) and proofs about it.

Modelling conventions:
* `f64` and `f32` values are modelled as exact rationals (`ℚ`); floating-point
  rounding is not modelled, arithmetic is exact.
* `f64::MAX` (the "unscheduled" sentinel used by the renderer) is the exact
  rational value of that constant, `2^1024 - 2^971`.
* Fallible operations of the render thread (slice indexing, which panics in
  Rust when out of bounds, and the loop-wrap `while` loops, which can fail to
  terminate) are modelled in `Except Defect`.
* `2^(detune/1200)` is transcendental; the compound k-rate parameter is taken
  as an input of each block: `detune_factor` stands for `2^(detune/1200)`
  (a positive number), and `computed_playback_rate = playback_rate * detune_factor`.
-/

set_option maxRecDepth 8000

namespace WebAudioSrc

/-- Modelled from the spec: the render quantum length `Q` is a build-time
constant with reference value 128 (`RENDER_QUANTUM_SIZE`, declared outside
`src/`). -/
def RENDER_QUANTUM_SIZE : ℕ := 128

/-- The exact rational value of `f64::MAX`, `(2 - 2^-52) * 2^1023`
(that is, `2^1024 - 2^971`), written as an explicit numeral. -/
def f64MAX : ℚ := 179769313486231570814527423731704356798070567525844996598917476803157260780028538760589558632766878171540458953514382464234321326889464182768467546703537516986049910576551282076245490090389328944075868508455133942304583236903222948165808559332123348274797826204144723168738177180919299881250404026184124858368

/-- Modelled from the spec: an `AudioBuffer` (declared outside `src/`) is an
immutable multi-channel PCM container: channels of equal length `N` of f32
samples plus a sample rate (wire form `{sample_rate: f32, channels: [[f32; N]; C]}`). -/
structure AudioBuffer where
  channels : List (List ℚ)
  sample_rate : ℚ
deriving DecidableEq

/-- Modelled from the spec: `buffer.length()` is the per-channel frame count `N`
(all channels have equal length). -/
def AudioBuffer.length (b : AudioBuffer) : ℕ := (b.channels.headD []).length

/-- Modelled from the spec: `duration = N / sample_rate`. -/
def AudioBuffer.duration (b : AudioBuffer) : ℚ := (b.length : ℚ) / b.sample_rate

/-- Modelled from the spec: the number of channels of the buffer. -/
def AudioBuffer.numberOfChannels (b : AudioBuffer) : ℕ := b.channels.length

/-- Source `LoopState { is_looping, start, end }` of `audio_buffer_source.rs`
(`end` is a Lean keyword, hence `end_`). -/
structure LoopState where
  is_looping : Bool
  start : ℚ
  end_ : ℚ
deriving DecidableEq

/-- Source `PlaybackInfo { prev_frame_index, k }` of the slow path. -/
structure PlaybackInfo where
  prev_frame_index : ℕ
  k : ℚ
deriving DecidableEq

/-- Source `AudioBufferRendererState` of `audio_buffer_source.rs`; `buffer_time` is
the shared atomic (modelled as a plain field of the render-side state). -/
structure RendererState where
  buffer_time : ℚ
  started : Bool
  entered_loop : Bool
  buffer_time_elapsed : ℚ
  is_aligned : Bool
  ended : Bool
deriving DecidableEq

/-- Source `AudioBufferRendererState::default()`. -/
def RendererState.default : RendererState :=
  { buffer_time := 0, started := false, entered_loop := false,
    buffer_time_elapsed := 0, is_aligned := false, ended := false }

/-- Source `AudioBufferSourceRenderer`: the render-side processor state. -/
structure Renderer where
  start_time : ℚ
  stop_time : ℚ
  offset : ℚ
  duration : ℚ
  buffer : Option AudioBuffer
  loop_state : LoopState
  render_state : RendererState
deriving DecidableEq

/-- The renderer as constructed by `AudioBufferSourceNode::new` (the loop
state comes unclamped from the options; no buffer is installed yet). -/
def initialRenderer (ls : LoopState) : Renderer :=
  { start_time := f64MAX, stop_time := f64MAX, offset := 0, duration := f64MAX,
    buffer := none, loop_state := ls, render_state := RendererState.default }

/-- Source `ControlMessage` of `audio_buffer_source.rs`. -/
inductive ControlMessage where
  | startWithOffsetAndDuration (when offset duration : ℚ)
  | stop (when : ℚ)
  | loop (is_looping : Bool)
  | loopStart (v : ℚ)
  | loopEnd (v : ℚ)
deriving DecidableEq

/-- A message delivered to `AudioBufferSourceRenderer::onmessage`: either a
`ControlMessage` or an `AudioBuffer` (the `SetBuffer` payload). -/
inductive Msg where
  | control (m : ControlMessage)
  | setBuffer (b : AudioBuffer)
deriving DecidableEq

/-- Source `AudioBufferSourceRenderer::clamp_loop_boundaries`. -/
def clamp_loop_boundaries (r : Renderer) : Renderer :=
  match r.buffer with
  | none => r
  | some b =>
    let d := b.duration
    let s1 := if r.loop_state.start < 0 then 0
      else if r.loop_state.start > d then d
      else r.loop_state.start
    let e1 := if r.loop_state.end_ ≤ 0 ∨ r.loop_state.end_ > d then d
      else r.loop_state.end_
    { r with loop_state := { r.loop_state with start := s1, end_ := e1 } }

/-- Source `AudioBufferSourceRenderer::handle_control_message`: apply the message
fields, then re-clamp the loop boundaries. -/
def handle_control_message (r : Renderer) (m : ControlMessage) : Renderer :=
  clamp_loop_boundaries
    (match m with
     | .startWithOffsetAndDuration w o d =>
       { r with start_time := w, offset := o, duration := d }
     | .stop w => { r with stop_time := w }
     | .loop b => { r with loop_state := { r.loop_state with is_looping := b } }
     | .loopStart v => { r with loop_state := { r.loop_state with start := v } }
     | .loopEnd v => { r with loop_state := { r.loop_state with end_ := v } })

/-- Source `AudioBufferSourceRenderer::onmessage`: a control message is handled as
above; a buffer message swaps with an existing buffer (no re-clamp) or
installs the buffer and clamps the loop boundaries. -/
def onmessage (r : Renderer) : Msg → Renderer
  | .control m => handle_control_message r m
  | .setBuffer b =>
    match r.buffer with
    | some _ => { r with buffer := some b }
    | none => clamp_loop_boundaries { r with buffer := some b }

/-- Source `AudioBufferSourceRenderer::before_drop`: returns the new state and
whether an `ended` event was sent. -/
def before_drop (r : Renderer) (current_time : ℚ) : Renderer × Bool :=
  if r.render_state.ended = false ∧ current_time ≥ r.start_time then
    ({ r with render_state := { r.render_state with ended := true } }, true)
  else (r, false)

/-- A defect of the render thread: an out-of-bounds slice index (a panic in
Rust) or a non-terminating loop-wrap `while` loop. -/
inductive Defect where
  | outOfBounds
  | divergence
deriving DecidableEq

/-- The per-block inputs of `process`: the scope's clock and sample rate and
the two k-rate parameter values (`detune_factor` stands for `2^(detune/1200)`). -/
structure ProcessParams where
  current_time : ℚ
  sample_rate : ℚ
  playback_rate : ℚ
  detune_factor : ℚ
deriving DecidableEq

/-- Source `playback_rate * 2^(detune/1200)`, the compound k-rate parameter. -/
def computedPlaybackRate (p : ProcessParams) : ℚ := p.playback_rate * p.detune_factor

/-- The output quantum written by a silent block (`output.make_silent()`):
a single channel of `Q` zero samples. -/
def silenceOutput : List (List ℚ) := [List.replicate RENDER_QUANTUM_SIZE (0 : ℚ)]

/-- What one `process` call produces: the new renderer state, the output
quantum (one sample list per channel), whether `send_ended_event` was called,
and the tail-time return value. -/
structure ProcessResult where
  state : Renderer
  output : List (List ℚ)
  endedEvent : Bool
  ret : Bool
deriving DecidableEq

/-- Checked slice indexing: `ch[i]` panics in Rust when `i` is out of bounds. -/
def getSample (ch : List ℚ) (i : ℕ) : Except Defect ℚ :=
  match ch.get? i with
  | some v => .ok v
  | none => .error .outOfBounds

/-- Rust's `f64::round()` followed by `as usize`: round half away from zero
(for non-negative inputs, `⌊x + 1/2⌋`), saturating negative values to 0. -/
def roundUsize (x : ℚ) : ℕ := (⌊x + 1 / 2⌋).toNat

/-- Rust's `f64 as usize`: truncation toward zero, saturating negatives to 0. -/
def truncUsize (x : ℚ) : ℕ := (⌊x⌋).toNat

/-- Rust's `%` on non-negative `f64` dividends with positive divisor
(used to re-seat `buffer_time` after a fast-path loop wrap). -/
def floatMod (a b : ℚ) : ℚ := if b = 0 then 0 else a - b * ⌊a / b⌋

/-- Modelled from the spec: the floating-point tolerance comparison
`almost::equal` (an external crate) used by the sticky-start rule; the spec
only requires "a floating-point tolerance ε". The proofs below do not depend
on the particular tolerance predicate. -/
def almostEqual (a b : ℚ) : Bool := |a - b| ≤ 1 / 2 ^ 26 * max (max |a| |b|) 1

/-- The fast-path inner loop of the "buffer ends within this block" case, for
one channel: walks output indices, copying from `start_index + index - offset`
and, when looping, rewinding to buffer index 0 at the loop point. Returns the
channel's samples and the (shared) loop-point index. -/
def fastStraddleGo (isLooping : Bool) (endIdx : ℕ) (ch : List ℚ) :
    List ℕ → ℕ → ℕ → Option ℕ → List ℚ → Except Defect (List ℚ × Option ℕ)
  | [], _, _, lp, acc => .ok (acc, lp)
  | idx :: rest, si, off, lp, acc =>
    let bi := si + idx - off
    if bi < endIdx then
      match getSample ch bi with
      | .error d => .error d
      | .ok v => fastStraddleGo isLooping endIdx ch rest si off lp (acc ++ [v])
    else
      if isLooping then
        match getSample ch 0 with
        | .error d => .error d
        | .ok v => fastStraddleGo isLooping endIdx ch rest 0 idx (some idx) (acc ++ [v])
      else
        fastStraddleGo isLooping endIdx ch rest si off lp (acc ++ [0])

/-- The fast-path straddle case over all channels; `loop_point_index` is
declared outside the per-channel closure in the source, so it carries over
from one channel to the next, while `start_index`/`offset` restart fresh. -/
def fastStraddleChannels (isLooping : Bool) (endIdx : ℕ) (idxs : List ℕ) (si0 : ℕ) :
    List (List ℚ) → Option ℕ → Except Defect (List (List ℚ) × Option ℕ)
  | [], lp => .ok ([], lp)
  | ch :: rest, lp =>
    match fastStraddleGo isLooping endIdx ch idxs si0 0 lp [] with
    | .error d => .error d
    | .ok (outc, lp1) =>
      match fastStraddleChannels isLooping endIdx idxs si0 rest lp1 with
      | .error d => .error d
      | .ok (outs, lp2) => .ok (outc :: outs, lp2)

/-- The fast-path memcpy case: `buffer_channel[start_index..start_index + Q]`
copied into the output; the slice panics when it overruns the channel. -/
def fastCopyChannels (si q : ℕ) : List (List ℚ) → Except Defect (List (List ℚ))
  | [] => .ok []
  | ch :: rest =>
    if si + q ≤ ch.length then
      match fastCopyChannels si q rest with
      | .error d => .error d
      | .ok outs => .ok ((ch.drop si).take q :: outs)
    else .error .outOfBounds

/-- The slow-path loop wrap: `while buffer_time >= actual_loop_end { -= len }`
then `while buffer_time < actual_loop_start { += len }`. For a positive loop
length this lands at the unique representative in
`[actual_loop_start, actual_loop_end)`; otherwise neither `while` loop can
terminate. -/
def loopWrap (als ale bt : ℚ) : Except Defect ℚ :=
  if als < ale then .ok (bt - (ale - als) * ⌊(bt - als) / (ale - als)⌋)
  else .error .divergence

/-- The block-constant context of the slow-path position loop. -/
structure SlowCtx where
  blockTime : ℚ
  dt : ℚ
  stopTime : ℚ
  nodeDuration : ℚ
  isLooping : Bool
  als : ℚ
  ale : ℚ
  computed : ℚ
  rateScale : ℚ
  sampleRate : ℚ
  bufferDuration : ℚ
  bufferLength : ℕ
deriving DecidableEq

/-- The mutable state of the slow-path position loop (`self.start_time`,
`self.offset`, the local `buffer_time`, `buffer_time_elapsed`, `started`,
`entered_loop`, and the `playback_infos` accumulated so far). -/
structure SlowState where
  start_time : ℚ
  offset : ℚ
  bt : ℚ
  elapsed : ℚ
  started : Bool
  entered : Bool
  infos : List (Option PlaybackInfo)
deriving DecidableEq

/-- The sticky-start rule (source lines 638-640): while not started, a
sample time within tolerance of `start_time` snaps `start_time` onto it. -/
def stickyStart (c : SlowCtx) (s : SlowState) (i : ℕ) : ℚ :=
  if s.started = false ∧ almostEqual (c.blockTime + (i : ℚ) * c.dt) s.start_time = true
  then c.blockTime + (i : ℚ) * c.dt
  else s.start_time

/-- The first-active-sample handling (source lines 655-673): when not yet
started, the sub-sample delta advances `offset` (clamped into the loop for
each playback direction) and seeds `buffer_time` and `buffer_time_elapsed`;
otherwise the three values pass through. Returns
`(offset, buffer_time, buffer_time_elapsed)`. -/
def slowActive (c : SlowCtx) (s : SlowState) (st1 t : ℚ) : ℚ × ℚ × ℚ :=
  if s.started = false then
    let delta := t - st1
    let off1 := s.offset + delta * c.computed
    let off2 :=
      if c.isLooping = true ∧ 0 ≤ c.computed ∧ off1 ≥ c.ale then c.ale else off1
    let off3 :=
      if c.isLooping = true ∧ c.computed < 0 ∧ off2 < c.als then c.als else off2
    (off3, off3, delta * c.computed)
  else (s.offset, s.bt, s.elapsed)

/-- The loop-entry detection (source lines 675-686). -/
def slowEntered (c : SlowCtx) (s : SlowState) (off bt : ℚ) : Bool :=
  if c.isLooping = true ∧ s.entered = false then
    decide ((off < c.ale ∧ bt ≥ c.als) ∨ (off ≥ c.ale ∧ bt < c.ale))
  else s.entered

/-- The playhead-to-frame conversion (source lines 700-716): a
`PlaybackInfo` is recorded only for an in-range buffer time whose floored
playhead is a valid frame index. -/
def slowInfoAt (c : SlowCtx) (btw : ℚ) : Option PlaybackInfo :=
  if 0 ≤ btw ∧ btw < c.bufferDuration then
    let playhead := btw * c.rateScale * c.sampleRate
    let prev := (⌊playhead⌋).toNat
    let k := playhead - (⌊playhead⌋ : ℚ)
    if prev < c.bufferLength then some { prev_frame_index := prev, k := k } else none
  else none

/-- One iteration of the slow-path position loop (source lines 633-721):
sticky start, skip conditions, first-active-sample offset handling,
loop-entry detection, loop wrap, playhead-to-frame conversion, and the
`buffer_time` advance. -/
def slowStep (c : SlowCtx) (s : SlowState) (i : ℕ) : Except Defect SlowState :=
  let t := c.blockTime + (i : ℚ) * c.dt
  let st1 := stickyStart c s i
  if t < st1 ∨ t ≥ c.stopTime ∨ s.elapsed ≥ c.nodeDuration then
    .ok { s with start_time := st1, infos := s.infos ++ [none] }
  else
    let act := slowActive c s st1 t
    let entered1 := slowEntered c s act.1 act.2.1
    match (if c.isLooping = true ∧ entered1 = true then loopWrap c.als c.ale act.2.1
           else .ok act.2.1) with
    | .error d => .error d
    | .ok btw =>
      .ok { start_time := st1, offset := act.1, bt := btw + c.dt * c.computed,
            elapsed := act.2.2 + c.dt * c.computed, started := true,
            entered := entered1, infos := s.infos ++ [slowInfoAt c btw] }

/-- The slow-path position loop over the block's sample indices. -/
def slowLoop (c : SlowCtx) : List ℕ → SlowState → Except Defect SlowState
  | [], s => .ok s
  | i :: rest, s =>
    match slowStep c s i with
    | .error d => .error d
    | .ok s1 => slowLoop c rest s1

/-- The slow-path interpolation of one output sample from a recorded
`PlaybackInfo` (source lines 735-788): the next sample comes from the
following frame, from the loop start / loop end when looping past the last
frame (`playback_rate` here is the raw parameter, as in the source), or from
the extrapolation / zero guards when not looping. -/
def interpSample (isLooping : Bool) (rawRate als ale sampleRate : ℚ) (ch : List ℚ)
    (pi : PlaybackInfo) : Except Defect ℚ :=
  match getSample ch pi.prev_frame_index with
  | .error d => .error d
  | .ok prev_sample =>
    match ch.get? (pi.prev_frame_index + 1) with
    | some v => .ok ((1 - pi.k) * prev_sample + pi.k * v)
    | none =>
      if isLooping then
        if 0 ≤ rawRate then
          let sp := als * sampleRate
          let si := if (⌊sp⌋ : ℚ) = sp then truncUsize sp else truncUsize sp + 1
          match getSample ch si with
          | .error d => .error d
          | .ok nv => .ok ((1 - pi.k) * prev_sample + pi.k * nv)
        else
          match getSample ch (truncUsize (ale * sampleRate)) with
          | .error d => .error d
          | .ok nv => .ok ((1 - pi.k) * prev_sample + pi.k * nv)
      else
        if almostEqual pi.k 1 = true ∨ pi.prev_frame_index = 0 then
          .ok ((1 - pi.k) * prev_sample + pi.k * 0)
        else
          match getSample ch (pi.prev_frame_index - 1) with
          | .error d => .error d
          | .ok pv => .ok ((1 - pi.k) * prev_sample + pi.k * (2 * prev_sample - pv))

/-- One slot of the slow-path fill pass: a zero for an empty slot, an
interpolated sample for a recorded `PlaybackInfo`. -/
def fillOne (isLooping : Bool) (rawRate als ale sampleRate : ℚ) (ch : List ℚ) :
    Option PlaybackInfo → Except Defect ℚ
  | none => .ok 0
  | some pi => interpSample isLooping rawRate als ale sampleRate ch pi

/-- The slow-path fill pass for one channel. -/
def fillChannel (isLooping : Bool) (rawRate als ale sampleRate : ℚ) (ch : List ℚ) :
    List (Option PlaybackInfo) → Except Defect (List ℚ)
  | [] => .ok []
  | oi :: rest =>
    match fillOne isLooping rawRate als ale sampleRate ch oi with
    | .error d => .error d
    | .ok v =>
      match fillChannel isLooping rawRate als ale sampleRate ch rest with
      | .error d => .error d
      | .ok vs => .ok (v :: vs)

/-- The slow-path fill pass over all channels. -/
def fillOutput (isLooping : Bool) (rawRate als ale sampleRate : ℚ)
    (infos : List (Option PlaybackInfo)) : List (List ℚ) → Except Defect (List (List ℚ))
  | [] => .ok []
  | ch :: rest =>
    match fillChannel isLooping rawRate als ale sampleRate ch infos with
    | .error d => .error d
    | .ok outc =>
      match fillOutput isLooping rawRate als ale sampleRate infos rest with
      | .error d => .error d
      | .ok outs => .ok (outc :: outs)

/-- What the main body of `process` (after the early exits) computes: the
output quantum plus the new values of every renderer field it writes. -/
structure CoreResult where
  output : List (List ℚ)
  start_time : ℚ
  offset : ℚ
  buffer_time : ℚ
  buffer_time_elapsed : ℚ
  started : Bool
  entered_loop : Bool
  is_aligned : Bool
deriving DecidableEq

/-- Source `block_duration = Q * dt` for a block's parameters. -/
def blockDuration (p : ProcessParams) : ℚ := 1 / p.sample_rate * (RENDER_QUANTUM_SIZE : ℚ)

/-- The start-time normalization of 4.1.4 (source lines 503-505): a start
scheduled in the past of a not-yet-started node snaps to `block_time`. -/
def startNormalized (r : Renderer) (p : ProcessParams) : ℚ :=
  if r.render_state.started = false ∧ r.start_time < p.current_time then p.current_time
  else r.start_time

/-- The fast-path eligibility chain (source lines 514-539): `is_aligned` is
set on an aligned start and invalidated by resampling, non-default loop
bounds, or a user end inside the block. -/
def alignedFlag (r : Renderer) (b : AudioBuffer) (p : ProcessParams) : Bool :=
  let al1 :=
    if startNormalized r p = p.current_time ∧ r.offset = 0 then true
    else r.render_state.is_aligned
  let al2 :=
    if b.sample_rate / p.sample_rate ≠ 1 ∨ computedPlaybackRate p ≠ 1 then false else al1
  let al3 := if r.loop_state.start ≠ 0 ∨ r.loop_state.end_ ≠ b.duration then false else al2
  if r.render_state.buffer_time + blockDuration p > r.duration ∨
      p.current_time + blockDuration p > r.stop_time then false
  else al3

/-- The fast track (source lines 541-611): sample-aligned copy, with the
straddle case when the buffer ends within the block. -/
def fastTrack (r : Renderer) (b : AudioBuffer) (p : ProcessParams) :
    Except Defect CoreResult :=
  let start1 := startNormalized r p
  let started1 := if start1 = p.current_time then true else r.render_state.started
  let bt0 := r.render_state.buffer_time
  if bt0 + blockDuration p > b.duration then
    match fastStraddleChannels r.loop_state.is_looping b.length
        (List.range RENDER_QUANTUM_SIZE) (roundUsize (bt0 * p.sample_rate))
        b.channels none with
    | .error d => .error d
    | .ok (outs, lp) =>
      let bt1 :=
        match lp with
        | some pidx =>
          floatMod (((RENDER_QUANTUM_SIZE - pidx : ℕ) : ℚ) / p.sample_rate) b.duration
        | none => bt0 + blockDuration p
      .ok { output := outs, start_time := start1, offset := r.offset,
            buffer_time := bt1,
            buffer_time_elapsed := r.render_state.buffer_time_elapsed + blockDuration p,
            started := started1, entered_loop := r.render_state.entered_loop,
            is_aligned := true }
  else
    match fastCopyChannels (roundUsize (bt0 * p.sample_rate)) RENDER_QUANTUM_SIZE
        b.channels with
    | .error d => .error d
    | .ok outs =>
      .ok { output := outs, start_time := start1, offset := r.offset,
            buffer_time := bt0 + blockDuration p,
            buffer_time_elapsed := r.render_state.buffer_time_elapsed + blockDuration p,
            started := started1, entered_loop := r.render_state.entered_loop,
            is_aligned := true }

/-- The effective loop bounds `[actual_loop_start, actual_loop_end]` of the
slow track (source lines 616-626); `(0, 0)` when not looping, as in the
source's initialization. -/
def slowBounds (r : Renderer) (b : AudioBuffer) : ℚ × ℚ :=
  if r.loop_state.is_looping = true then
    if 0 ≤ r.loop_state.start ∧ 0 < r.loop_state.end_ ∧ r.loop_state.start < r.loop_state.end_
    then (r.loop_state.start, r.loop_state.end_)
    else ((0 : ℚ), b.duration)
  else ((0 : ℚ), (0 : ℚ))

/-- The block-constant context of the slow track. -/
def slowCtx (r : Renderer) (b : AudioBuffer) (p : ProcessParams) : SlowCtx :=
  { blockTime := p.current_time, dt := 1 / p.sample_rate, stopTime := r.stop_time,
    nodeDuration := r.duration, isLooping := r.loop_state.is_looping,
    als := (slowBounds r b).1, ale := (slowBounds r b).2,
    computed := computedPlaybackRate p, rateScale := b.sample_rate / p.sample_rate,
    sampleRate := p.sample_rate, bufferDuration := b.duration, bufferLength := b.length }

/-- The initial state of the slow-track position loop; `entered_loop` is
cleared when not looping (source line 625). -/
def slowInit (r : Renderer) (p : ProcessParams) : SlowState :=
  { start_time := startNormalized r p, offset := r.offset,
    bt := r.render_state.buffer_time,
    elapsed := r.render_state.buffer_time_elapsed, started := r.render_state.started,
    entered := if r.loop_state.is_looping = true then r.render_state.entered_loop else false,
    infos := [] }

/-- The slow track (source lines 612-792): the position loop followed by the
interpolating fill pass. -/
def slowTrack (r : Renderer) (b : AudioBuffer) (p : ProcessParams) :
    Except Defect CoreResult :=
  match slowLoop (slowCtx r b p) (List.range RENDER_QUANTUM_SIZE) (slowInit r p) with
  | .error d => .error d
  | .ok s1 =>
    match fillOutput r.loop_state.is_looping p.playback_rate (slowBounds r b).1
        (slowBounds r b).2 p.sample_rate s1.infos b.channels with
    | .error d => .error d
    | .ok outs =>
      .ok { output := outs, start_time := s1.start_time, offset := s1.offset,
            buffer_time := s1.bt, buffer_time_elapsed := s1.elapsed,
            started := s1.started, entered_loop := s1.entered, is_aligned := false }

/-- The main body of `AudioBufferSourceRenderer::process` (source lines
466-793): start-time normalization, fast-path eligibility, and the fast
(memcpy) or slow (interpolating) track. -/
def processCore (r : Renderer) (b : AudioBuffer) (p : ProcessParams) :
    Except Defect CoreResult :=
  if alignedFlag r b p = true then fastTrack r b p else slowTrack r b p

/-- Source `next_block_time = block_time + block_duration`. -/
def nextBlockTime (p : ProcessParams) : ℚ := p.current_time + blockDuration p

/-- The end-of-block ended condition (source lines 804-809). -/
def endedCondition (isLooping : Bool) (computed nextBlockTime stopTime elapsed
    nodeDuration bt bufferDuration : ℚ) : Bool :=
  decide (nextBlockTime ≥ stopTime) || decide (elapsed ≥ nodeDuration) ||
    (!isLooping &&
      (decide (computed > 0) && decide (bt ≥ bufferDuration) ||
       decide (computed < 0) && decide (bt < 0)))

/-- Source `AudioBufferSourceRenderer::process`: the early exits, the main body, and
the end-of-block bookkeeping (store `buffer_time`, mark/emit `ended`,
return `true`). -/
def process (r : Renderer) (p : ProcessParams) : Except Defect ProcessResult :=
  if r.render_state.ended = true then
    .ok { state := r, output := silenceOutput, endedEvent := false, ret := false }
  else
    if r.start_time ≥ nextBlockTime p then
      .ok { state := r, output := silenceOutput, endedEvent := false,
            ret := if r.start_time = f64MAX then false else true }
    else
      match r.buffer with
      | none => .ok { state := r, output := silenceOutput, endedEvent := false, ret := false }
      | some b =>
        match processCore r b p with
        | .error d => .error d
        | .ok core =>
          let cond := endedCondition r.loop_state.is_looping (computedPlaybackRate p)
            (nextBlockTime p) r.stop_time core.buffer_time_elapsed r.duration
            core.buffer_time b.duration
          let rs : RendererState :=
            { buffer_time := core.buffer_time, started := core.started,
              entered_loop := core.entered_loop,
              buffer_time_elapsed := core.buffer_time_elapsed,
              is_aligned := core.is_aligned, ended := cond }
          let st : Renderer :=
            { r with
              start_time := core.start_time, offset := core.offset,
              render_state := rs }
          .ok { state := st, output := core.output, endedEvent := cond, ret := true }

/-! ### Control-side handle -/

/-- An `f64` as seen at the control boundary: a finite rational or one of the
non-finite values (needed because the control-side assertions reject
non-finite inputs). -/
inductive F64 where
  | val (q : ℚ)
  | nan
  | posInf
  | negInf
deriving DecidableEq

/-- The rational value of a finite `F64` (only used after validation). -/
def F64.toQ : F64 → ℚ
  | .val q => q
  | _ => 0

/-- Modelled from the spec: `assert_valid_time_value` (declared outside
`src/`) panics on a non-finite or negative time value. -/
def assert_valid_time_value (x : F64) : Bool :=
  match x with
  | .val q => decide (0 ≤ q)
  | _ => false

/-- The control-side scheduling state of `AudioBufferSourceNode` relevant to
the claims: its buffer clone, its local loop state, and `start_stop_count`. -/
structure ControlNode where
  buffer : Option AudioBuffer
  loop_state : LoopState
  start_stop_count : ℕ
deriving DecidableEq

/-- Source `AudioBufferSourceNode::set_loop_start`: stores the value and posts the
corresponding message. -/
def set_loop_start (n : ControlNode) (v : ℚ) : ControlNode × Msg :=
  ({ n with loop_state := { n.loop_state with start := v } }, .control (.loopStart v))

/-- Source `AudioBufferSourceNode::set_loop_end`: stores the value and posts the
corresponding message. -/
def set_loop_end (n : ControlNode) (v : ℚ) : ControlNode × Msg :=
  ({ n with loop_state := { n.loop_state with end_ := v } }, .control (.loopEnd v))

/-- Source `AudioBufferSourceNode::start_at_with_offset_and_duration`: validates the
three time values, asserts the node was never started, then posts the start
message. The result is the list of messages posted and `none` when an
assertion panics (nothing is posted before the assertions). -/
def start_at_with_offset_and_duration (n : ControlNode) (start offset duration : F64) :
    List Msg × Option ControlNode :=
  if assert_valid_time_value start = false then ([], none)
  else if assert_valid_time_value offset = false then ([], none)
  else if assert_valid_time_value duration = false then ([], none)
  else if n.start_stop_count ≠ 0 then ([], none)
  else
    ([.control (.startWithOffsetAndDuration start.toQ offset.toQ duration.toQ)],
     some { n with start_stop_count := n.start_stop_count + 1 })

/-- Source `AudioBufferSourceNode::stop_at`: validates the time value, asserts the
node was started exactly once, then posts the stop message. -/
def stop_at (n : ControlNode) (when : F64) : List Msg × Option ControlNode :=
  if assert_valid_time_value when = false then ([], none)
  else if n.start_stop_count ≠ 1 then ([], none)
  else ([.control (.stop when.toQ)], some { n with start_stop_count := n.start_stop_count + 1 })

/-- Source `AudioBufferSourceNode::set_buffer`: asserts no buffer was set, then
stores the buffer and posts a clone to the render side. -/
def set_buffer (n : ControlNode) (b : AudioBuffer) : List Msg × Option ControlNode :=
  match n.buffer with
  | some _ => ([], none)
  | none => ([.setBuffer b], some { n with buffer := some b })

/-! ### Render-side traces -/

/-- One render-side step of a node's life: a `process` call, an incoming
message, or the control handle being dropped. -/
inductive Step where
  | proc (p : ProcessParams)
  | msg (m : Msg)
  | dropHandle (t : ℚ)
deriving DecidableEq

/-- Run one step; `none` when `process` hits a defect (the real render thread
panics or hangs and the trace ends). The Bool records whether this step
emitted the `ended` event. -/
def runStep (r : Renderer) : Step → Option (Renderer × Bool)
  | .proc p =>
    match process r p with
    | .ok res => some (res.state, res.endedEvent)
    | .error _ => none
  | .msg m => some (onmessage r m, false)
  | .dropHandle t => some (before_drop r t)

/-- Run a trace of steps, returning the final state and the total number of
`ended` events emitted. -/
def runTrace (r : Renderer) : List Step → Renderer × ℕ
  | [] => (r, 0)
  | s :: rest =>
    match runStep r s with
    | none => (r, 0)
    | some (r1, e) =>
      let t := runTrace r1 rest
      (t.1, (if e then 1 else 0) + t.2)

/-! ### Statement-level predicates -/

/-- The ended-marking contract of a producing block: the call returns `true`
and marks/emits `ended` exactly iff the end-of-block disjunction of the spec
holds (stated over the result's stored `buffer_time` / `buffer_time_elapsed`). -/
def producedEndedContract (r : Renderer) (b : AudioBuffer) (p : ProcessParams) : Prop :=
  ∀ res, process r p = .ok res →
    res.ret = true ∧
    ((res.endedEvent = true ∧ res.state.render_state.ended = true) ↔
      (nextBlockTime p ≥ r.stop_time ∨
       res.state.render_state.buffer_time_elapsed ≥ r.duration ∨
       (r.loop_state.is_looping = false ∧
         ((computedPlaybackRate p > 0 ∧ res.state.render_state.buffer_time ≥ b.duration) ∨
          (computedPlaybackRate p < 0 ∧ res.state.render_state.buffer_time < 0)))))

/-- Output slots whose time is earlier than the (post-call) start time hold
the sample value 0. -/
def silentBeforeStart (e : Except Defect ProcessResult) (p : ProcessParams) : Prop :=
  ∀ res, e = .ok res → ∀ ch ∈ res.output, ∀ i : ℕ,
    p.current_time + (i : ℚ) * (1 / p.sample_rate) < res.state.start_time →
    ch.getD i 0 = 0

/-- The post-clamp loop-state invariant (amended: `0 < end` only when the
buffer's duration is itself positive). -/
def LoopInvariant (ls : LoopState) (d : ℚ) : Prop :=
  0 ≤ ls.start ∧ ls.start ≤ d ∧ 0 ≤ ls.end_ ∧ ls.end_ ≤ d ∧ (0 < d → 0 < ls.end_)

/-- The invariant of the slow-path position loop used to prove
`silentBeforeStart`: while not started every recorded slot is empty, and a
recorded slot's time is never earlier than the current start time. -/
def SlowInv (c : SlowCtx) (s : SlowState) : Prop :=
  (s.started = false → ∀ oi ∈ s.infos, oi = none) ∧
  (∀ (j : ℕ) (pi : PlaybackInfo), s.infos[j]? = some (some pi) →
    c.blockTime + (j : ℚ) * c.dt ≥ s.start_time)

/-! ### Concrete instances used by witnesses and counterexamples -/

/-- A block at time 0 with sample rate 48000 and unit parameters. -/
def pStd : ProcessParams :=
  { current_time := 0, sample_rate := 48000, playback_rate := 1, detune_factor := 1 }

/-- The default loop state of the options (`loop = false, loopStart = loopEnd = 0`). -/
def lsOff : LoopState := { is_looping := false, start := 0, end_ := 0 }

/-- A one-sample mono buffer holding a unit impulse. -/
def bOne : AudioBuffer := { channels := [[1]], sample_rate := 48000 }

/-- A legal `N == 0` buffer: one channel holding no samples. -/
def bEmpty : AudioBuffer := { channels := [[]], sample_rate := 48000 }

/-- A freshly constructed renderer (never scheduled, no buffer). -/
def rIdle : Renderer := initialRenderer lsOff

/-- A renderer whose `ended` latch is set. -/
def rEnded : Renderer :=
  { rIdle with render_state := { RendererState.default with ended := true } }

/-- A renderer scheduled to start at 0 but with no buffer installed. -/
def rNoBuf : Renderer := { rIdle with start_time := 0 }

/-- A renderer about to produce: started at 0 with the one-sample buffer. -/
def rProducing : Renderer := { rNoBuf with buffer := some bOne }

/-- The state reached through the public interface by looping an `N == 0`
buffer: `loop = true`, buffer set (loop bounds clamped to `(0, 0)`),
`start_at(0)` delivered, first block at time 0. -/
def rEmptyLooped : Renderer :=
  { start_time := 0, stop_time := f64MAX, offset := 0, duration := f64MAX,
    buffer := some bEmpty, loop_state := { is_looping := true, start := 0, end_ := 0 },
    render_state := RendererState.default }

/-- A renderer holding an `N == 0` buffer and a pending loop state. -/
def rEmptyBufLoop : Renderer :=
  { rIdle with
    buffer := some bEmpty,
    loop_state := { is_looping := true, start := 0, end_ := 5 } }

/-- A renderer holding the one-sample buffer (for the clamp witness). -/
def rWithBuf : Renderer := { rIdle with buffer := some bOne }

/-- A control handle with a buffer already set and nothing scheduled. -/
def cNode : ControlNode :=
  { buffer := some bOne, loop_state := lsOff, start_stop_count := 0 }

/-- A fresh control handle: no buffer, nothing scheduled. -/
def n0 : ControlNode := { buffer := none, loop_state := lsOff, start_stop_count := 0 }

/-! ### Helper lemmas about `process` -/

theorem process_of_ended (r : Renderer) (p : ProcessParams)
    (h : r.render_state.ended = true) :
    process r p =
      .ok { state := r, output := silenceOutput, endedEvent := false, ret := false } := by
  simp [process, h]

theorem process_of_pending (r : Renderer) (p : ProcessParams)
    (h1 : r.render_state.ended = false) (h2 : r.start_time ≥ nextBlockTime p) :
    process r p =
      .ok { state := r, output := silenceOutput, endedEvent := false,
            ret := if r.start_time = f64MAX then false else true } := by
  simp [process, h1, h2]

theorem process_of_noBuffer (r : Renderer) (p : ProcessParams)
    (h1 : r.render_state.ended = false) (h2 : ¬r.start_time ≥ nextBlockTime p)
    (h3 : r.buffer = none) :
    process r p =
      .ok { state := r, output := silenceOutput, endedEvent := false, ret := false } := by
  simp [process, h1, h2, h3]

theorem process_main_eq (r : Renderer) (p : ProcessParams) (b : AudioBuffer)
    (core : CoreResult) (h1 : r.render_state.ended = false)
    (h2 : ¬r.start_time ≥ nextBlockTime p) (h3 : r.buffer = some b)
    (h4 : processCore r b p = .ok core) :
    process r p =
      .ok { state :=
              { r with
                start_time := core.start_time, offset := core.offset,
                render_state :=
                  { buffer_time := core.buffer_time, started := core.started,
                    entered_loop := core.entered_loop,
                    buffer_time_elapsed := core.buffer_time_elapsed,
                    is_aligned := core.is_aligned,
                    ended := endedCondition r.loop_state.is_looping
                      (computedPlaybackRate p) (nextBlockTime p) r.stop_time
                      core.buffer_time_elapsed r.duration core.buffer_time b.duration } },
            output := core.output,
            endedEvent := endedCondition r.loop_state.is_looping (computedPlaybackRate p)
              (nextBlockTime p) r.stop_time core.buffer_time_elapsed r.duration
              core.buffer_time b.duration,
            ret := true } := by
  simp [process, h1, h2, h3, h4]

theorem process_main_error (r : Renderer) (p : ProcessParams) (b : AudioBuffer)
    (d : Defect) (h1 : r.render_state.ended = false)
    (h2 : ¬r.start_time ≥ nextBlockTime p) (h3 : r.buffer = some b)
    (h4 : processCore r b p = .error d) :
    process r p = .error d := by
  simp [process, h1, h2, h3, h4]

/-! ### C1 -/

/-- C1: the claim that the render-side `process` never panics (with `N == 0`
buffers legal and rendering as silence, with or without looping) fails on the
code: on the fast path, a looping `N == 0` buffer makes `process` read
`buffer_channel[0]` of an empty channel, an out-of-bounds index (a panic). -/
theorem c1_process_panics_on_empty_looped_buffer :
    process rEmptyLooped pStd = .error .outOfBounds := by with_unfolding_all rfl

/-! ### C4 -/

/-- C4: the early-exit contract of `process`: when `ended` it writes silence
and returns `false`; when `start_time ≥ next_block_time` it writes silence
and returns `false` iff `start_time` is the unscheduled sentinel (`f64::MAX`,
the code's representation of the spec's `+∞`); when no buffer is set it
writes silence and returns `false`. -/
theorem c4_early_exit_contract (r : Renderer) (p : ProcessParams) :
    (r.render_state.ended = true →
      process r p =
        .ok { state := r, output := silenceOutput, endedEvent := false, ret := false }) ∧
    (r.render_state.ended = false → r.start_time ≥ nextBlockTime p →
      process r p =
        .ok { state := r, output := silenceOutput, endedEvent := false,
              ret := if r.start_time = f64MAX then false else true }) ∧
    (r.render_state.ended = false → ¬r.start_time ≥ nextBlockTime p → r.buffer = none →
      process r p =
        .ok { state := r, output := silenceOutput, endedEvent := false, ret := false }) :=
  ⟨process_of_ended r p, process_of_pending r p, process_of_noBuffer r p⟩

/-- Witness for C4: the three early exits evaluated at concrete states (an
ended node, an unscheduled node, and a scheduled node without a buffer). -/
theorem c4_early_exit_contract_witness :
    process rEnded pStd =
      .ok { state := rEnded, output := silenceOutput, endedEvent := false, ret := false } ∧
    process rIdle pStd =
      .ok { state := rIdle, output := silenceOutput, endedEvent := false,
            ret := if rIdle.start_time = f64MAX then false else true } ∧
    process rNoBuf pStd =
      .ok { state := rNoBuf, output := silenceOutput, endedEvent := false, ret := false } :=
  ⟨(c4_early_exit_contract rEnded pStd).1 rfl,
   (c4_early_exit_contract rIdle pStd).2.1 rfl (by with_unfolding_all decide),
   (c4_early_exit_contract rNoBuf pStd).2.2 rfl (by with_unfolding_all decide) rfl⟩

/-! ### C10 -/

/-- C10: each early exit of `process` leaves the renderer state unchanged
(in particular the shared `buffer_time` and the `started` / `is_aligned` /
`buffer_time_elapsed` fields), emits no event, and outputs silence. -/
theorem c10_early_exit_frame (r : Renderer) (p : ProcessParams) :
    (r.render_state.ended = true →
      (process r p).map (fun res => (res.state, res.output, res.endedEvent)) =
        .ok (r, silenceOutput, false)) ∧
    (r.render_state.ended = false → r.start_time ≥ nextBlockTime p →
      (process r p).map (fun res => (res.state, res.output, res.endedEvent)) =
        .ok (r, silenceOutput, false)) ∧
    (r.render_state.ended = false → ¬r.start_time ≥ nextBlockTime p → r.buffer = none →
      (process r p).map (fun res => (res.state, res.output, res.endedEvent)) =
        .ok (r, silenceOutput, false)) := by
  refine ⟨fun h => ?_, fun h1 h2 => ?_, fun h1 h2 h3 => ?_⟩
  · rw [process_of_ended r p h]; rfl
  · rw [process_of_pending r p h1 h2]; rfl
  · rw [process_of_noBuffer r p h1 h2 h3]; rfl

/-- Witness for C10: the frame condition evaluated at the same three
concrete early-exit states. -/
theorem c10_early_exit_frame_witness :
    (process rEnded pStd).map (fun res => (res.state, res.output, res.endedEvent)) =
      .ok (rEnded, silenceOutput, false) ∧
    (process rIdle pStd).map (fun res => (res.state, res.output, res.endedEvent)) =
      .ok (rIdle, silenceOutput, false) ∧
    (process rNoBuf pStd).map (fun res => (res.state, res.output, res.endedEvent)) =
      .ok (rNoBuf, silenceOutput, false) :=
  ⟨(c10_early_exit_frame rEnded pStd).1 rfl,
   (c10_early_exit_frame rIdle pStd).2.1 rfl (by with_unfolding_all decide),
   (c10_early_exit_frame rNoBuf pStd).2.2 rfl (by with_unfolding_all decide) rfl⟩

/-! ### C5 -/

/-- Counterexample for C5: dropping the handle of a node that was never
scheduled (`start_time` is the unscheduled sentinel) emits no `ended` event
and leaves `ended` unmarked, contrary to the claim. -/
theorem c5_counterexample_unscheduled_drop_is_silent :
    before_drop rIdle 0 = (rIdle, false) := by
  have h : ¬(rIdle.render_state.ended = false ∧ (0 : ℚ) ≥ rIdle.start_time) := by
    rintro ⟨-, h2⟩
    norm_num [rIdle, initialRenderer, f64MAX] at h2
  simp [before_drop, h]

/-- C5 amended: `before_drop` emits the `ended` event and marks `ended` iff
the node has not ended and `current_time ≥ start_time`; dropping before the
start time (in particular an unscheduled node, whose sentinel start time is
never reached) emits nothing and changes nothing. -/
theorem c5_amended_before_drop_contract (r : Renderer) (t : ℚ) :
    (r.render_state.ended = false → t ≥ r.start_time →
      before_drop r t =
        ({ r with render_state := { r.render_state with ended := true } }, true)) ∧
    (t < r.start_time → before_drop r t = (r, false)) := by
  constructor
  · intro h1 h2; simp [before_drop, h1, h2]
  · intro h
    have hc : ¬(r.render_state.ended = false ∧ t ≥ r.start_time) := by
      rintro ⟨-, h2⟩; exact absurd h2 (not_le.mpr h)
    simp [before_drop, hc]

/-- Witness for C5 amended: a node started at 0 and dropped at 0 emits the
event; the unscheduled node dropped at 0 does not. -/
theorem c5_amended_before_drop_contract_witness :
    before_drop rNoBuf 0 =
      ({ rNoBuf with render_state := { rNoBuf.render_state with ended := true } }, true) ∧
    before_drop rIdle 0 = (rIdle, false) :=
  ⟨(c5_amended_before_drop_contract rNoBuf 0).1 rfl le_rfl,
   (c5_amended_before_drop_contract rIdle 0).2
     (by norm_num [rIdle, initialRenderer, f64MAX])⟩

/-! ### C7 -/

/-- Counterexample for C7: `set_loop_start` stores the raw value without any
control-side clamping, so after `set_loop_start(-1)` the getter returns `-1`,
a value outside the clamped range `[0, duration]`. -/
theorem c7_counterexample_setter_does_not_clamp :
    (set_loop_start cNode (-1)).1.loop_state.start = -1 ∧
      ¬0 ≤ (set_loop_start cNode (-1)).1.loop_state.start := by with_unfolding_all decide

/-- C7 amended: the control-side setters store the value unclamped (the
getters return it as passed) and post the corresponding message; clamping
happens only on the render side when the message is applied. -/
theorem c7_amended_setters_store_raw_value (n : ControlNode) (v : ℚ) :
    set_loop_start n v =
      ({ n with loop_state := { n.loop_state with start := v } },
        .control (.loopStart v)) ∧
    set_loop_end n v =
      ({ n with loop_state := { n.loop_state with end_ := v } },
        .control (.loopEnd v)) :=
  ⟨rfl, rfl⟩

/-! ### C6 -/

theorem clamp_loop_invariant (r : Renderer) (b : AudioBuffer)
    (hb : r.buffer = some b) (hsr : 0 < b.sample_rate) :
    LoopInvariant (clamp_loop_boundaries r).loop_state b.duration := by
  have hd : 0 ≤ b.duration := div_nonneg (Nat.cast_nonneg _) hsr.le
  unfold clamp_loop_boundaries
  rw [hb]
  unfold LoopInvariant
  simp only
  split_ifs with h1 h2 h3 <;>
    push_neg at * <;>
    refine ⟨by linarith, by linarith, by linarith, by linarith, fun hpos => by linarith⟩

/-- Counterexample for C6: with an installed `N == 0` buffer (duration 0),
applying a loop-bound message clamps `loop_end` to 0, so the claimed
post-clamp invariant `0 < end` fails. -/
theorem c6_counterexample_zero_duration_end :
    ¬0 < (handle_control_message rEmptyBufLoop (.loopEnd 5)).loop_state.end_ := by
  norm_num [handle_control_message, clamp_loop_boundaries, rEmptyBufLoop, rIdle,
    initialRenderer, bEmpty, AudioBuffer.duration, AudioBuffer.length]

/-- C6 amended: after every clamp application (each control message applied
to a renderer holding a buffer, and each buffer install), the loop state
satisfies `0 ≤ start ≤ duration ∧ 0 ≤ end ≤ duration`, and `0 < end`
whenever the buffer's duration is positive (for `N == 0` buffers the clamp
sets `end = duration = 0`). -/
theorem c6_amended_clamp_invariant :
    (∀ r b m, r.buffer = some b → 0 < b.sample_rate →
      LoopInvariant (handle_control_message r m).loop_state b.duration) ∧
    (∀ r b, r.buffer = none → 0 < b.sample_rate →
      LoopInvariant (onmessage r (.setBuffer b)).loop_state b.duration) := by
  constructor
  · intro r b m hb hsr
    cases m <;> exact clamp_loop_invariant _ b hb hsr
  · intro r b hb hsr
    simp only [onmessage, hb]
    exact clamp_loop_invariant _ b rfl hsr

/-- Witness for C6 amended: the invariant after a loop-bound message on a
renderer holding the one-sample buffer, and after installing that buffer. -/
theorem c6_amended_clamp_invariant_witness :
    LoopInvariant (handle_control_message rWithBuf (.loopStart 1)).loop_state bOne.duration ∧
    LoopInvariant (onmessage rIdle (.setBuffer bOne)).loop_state bOne.duration :=
  ⟨c6_amended_clamp_invariant.1 rWithBuf bOne (.loopStart 1) rfl (by norm_num [bOne]),
   c6_amended_clamp_invariant.2 rIdle bOne rfl (by norm_num [bOne])⟩

/-! ### C8 -/

/-- C8: each programmer error (double start, stop before start or double
stop, double set-buffer, non-finite or negative time value) panics at the
control boundary before any message is posted: the operation returns the
empty message list and no successor state, so the renderer-visible
scheduling state is unchanged. -/
theorem c8_programmer_errors_panic_without_posting
    (n : ControlNode) (w o d : F64) (b : AudioBuffer) :
    (assert_valid_time_value w = false ∨ assert_valid_time_value o = false ∨
        assert_valid_time_value d = false ∨ n.start_stop_count ≠ 0 →
      start_at_with_offset_and_duration n w o d = ([], none)) ∧
    (assert_valid_time_value w = false ∨ n.start_stop_count ≠ 1 →
      stop_at n w = ([], none)) ∧
    (∀ b0, n.buffer = some b0 → set_buffer n b = ([], none)) := by
  refine ⟨fun h => ?_, fun h => ?_, fun b0 hb => ?_⟩
  · unfold start_at_with_offset_and_duration
    split_ifs with h1 h2 h3 h4 <;>
      first
        | rfl
        | (exfalso; rcases h with h | h | h | h <;> simp_all)
  · unfold stop_at
    split_ifs with h1 h2 <;>
      first
        | rfl
        | (exfalso; rcases h with h | h <;> simp_all)
  · simp [set_buffer, hb]

/-- Witness for C8: a non-finite start time, a stop before any start, and a
second `set_buffer`, each panicking with no message posted. -/
theorem c8_programmer_errors_witness :
    start_at_with_offset_and_duration n0 .nan (.val 0) (.val 0) = ([], none) ∧
    stop_at n0 (.val 0) = ([], none) ∧
    set_buffer cNode bOne = ([], none) :=
  ⟨(c8_programmer_errors_panic_without_posting n0 .nan (.val 0) (.val 0) bOne).1
      (Or.inl rfl),
   (c8_programmer_errors_panic_without_posting n0 (.val 0) (.val 0) (.val 0) bOne).2.1
      (Or.inr (by decide)),
   (c8_programmer_errors_panic_without_posting cNode (.val 0) (.val 0) (.val 0) bOne).2.2
      bOne rfl⟩

/-! ### C2 -/

/-- C2: on every block in which `process` produces output (none of the early
exits is taken), the call returns `true` and marks `ended := true` and emits
the ended event exactly iff `next_block_time ≥ stop_time`, or
`buffer_time_elapsed ≥ duration`, or the node is not looping and the playhead
ran off the buffer (`computed_playback_rate > 0 ∧ buffer_time ≥ buffer.duration`,
or `computed_playback_rate < 0 ∧ buffer_time < 0`), the conditions read on the
end-of-block state. -/
theorem c2_produced_block_ended_contract (r : Renderer) (p : ProcessParams)
    (b : AudioBuffer) (h1 : r.render_state.ended = false)
    (h2 : ¬r.start_time ≥ nextBlockTime p) (h3 : r.buffer = some b) :
    producedEndedContract r b p := by
  intro res hres
  cases hcore : processCore r b p with
  | error d =>
    rw [process_main_error r p b d h1 h2 h3 hcore] at hres
    exact absurd hres (by simp)
  | ok core =>
    rw [process_main_eq r p b core h1 h2 h3 hcore] at hres
    injection hres with hres
    subst hres
    refine ⟨rfl, ?_⟩
    simp only [endedCondition, Bool.or_eq_true, Bool.and_eq_true, decide_eq_true_eq,
      Bool.not_eq_true', and_self_iff]
    tauto

/-- Witness for C2: the contract applied to a node started at 0 holding the
one-sample buffer, at the first block. -/
theorem c2_produced_block_ended_contract_witness :
    rProducing.render_state.ended = false ∧
    ¬rProducing.start_time ≥ nextBlockTime pStd ∧
    rProducing.buffer = some bOne ∧
    producedEndedContract rProducing bOne pStd :=
  ⟨rfl, by with_unfolding_all decide, rfl,
   c2_produced_block_ended_contract rProducing pStd bOne rfl
     (by with_unfolding_all decide) rfl⟩

/-! ### C3 -/

theorem clamp_render_state (r : Renderer) :
    (clamp_loop_boundaries r).render_state = r.render_state := by
  cases hb : r.buffer <;> simp [clamp_loop_boundaries, hb]

theorem handle_render_state (r : Renderer) (m : ControlMessage) :
    (handle_control_message r m).render_state = r.render_state := by
  cases m <;> simp [handle_control_message, clamp_render_state]

theorem onmessage_render_state (r : Renderer) (m : Msg) :
    (onmessage r m).render_state = r.render_state := by
  cases m with
  | control c => exact handle_render_state r c
  | setBuffer b =>
    cases hb : r.buffer <;> simp [onmessage, hb, clamp_render_state]

theorem runStep_ended (r : Renderer) (s : Step) (r1 : Renderer) (e : Bool)
    (h : runStep r s = some (r1, e)) :
    (e = true → r.render_state.ended = false ∧ r1.render_state.ended = true) ∧
    (r.render_state.ended = true → r1.render_state.ended = true ∧ e = false) := by
  cases s with
  | msg m =>
    simp only [runStep, Option.some.injEq, Prod.mk.injEq] at h
    obtain ⟨hr, he⟩ := h
    subst hr
    constructor
    · intro hh; rw [hh] at he; exact absurd he (by simp)
    · intro hh; rw [onmessage_render_state r m]; exact ⟨hh, he.symm⟩
  | dropHandle t =>
    simp only [runStep, before_drop] at h
    split_ifs at h with hc
    · simp only [Option.some.injEq, Prod.mk.injEq] at h
      obtain ⟨hr, he⟩ := h
      subst hr
      exact ⟨fun _ => ⟨hc.1, rfl⟩, fun hh => absurd hh (by rw [hc.1]; simp)⟩
    · simp only [Option.some.injEq, Prod.mk.injEq] at h
      obtain ⟨hr, he⟩ := h
      subst hr
      constructor
      · intro hh; rw [hh] at he; exact absurd he (by simp)
      · intro hh; exact ⟨hh, he.symm⟩
  | proc p =>
    by_cases hend : r.render_state.ended = true
    · rw [runStep, process_of_ended r p hend] at h
      simp only [Option.some.injEq, Prod.mk.injEq] at h
      obtain ⟨hr, he⟩ := h
      subst hr
      constructor
      · intro hh; rw [hh] at he; exact absurd he (by simp)
      · intro _; exact ⟨hend, he.symm⟩
    · have hend' : r.render_state.ended = false := by
        revert hend; cases r.render_state.ended <;> simp
      by_cases hs : r.start_time ≥ nextBlockTime p
      · rw [runStep, process_of_pending r p hend' hs] at h
        simp only [Option.some.injEq, Prod.mk.injEq] at h
        obtain ⟨hr, he⟩ := h
        subst hr
        constructor
        · intro hh; rw [hh] at he; exact absurd he (by simp)
        · intro hh; exact absurd hh (by rw [hend']; simp)
      · cases hb : r.buffer with
        | none =>
          rw [runStep, process_of_noBuffer r p hend' hs hb] at h
          simp only [Option.some.injEq, Prod.mk.injEq] at h
          obtain ⟨hr, he⟩ := h
          subst hr
          constructor
          · intro hh; rw [hh] at he; exact absurd he (by simp)
          · intro hh; exact absurd hh (by rw [hend']; simp)
        | some b =>
          cases hcore : processCore r b p with
          | error d =>
            rw [runStep, process_main_error r p b d hend' hs hb hcore] at h
            exact absurd h (by simp)
          | ok core =>
            rw [runStep, process_main_eq r p b core hend' hs hb hcore] at h
            simp only [Option.some.injEq, Prod.mk.injEq] at h
            obtain ⟨hr, he⟩ := h
            subst hr
            constructor
            · intro hh; exact ⟨hend', by simpa using he.trans hh⟩
            · intro hh; exact absurd hh (by rw [hend']; simp)

theorem runTrace_bound (l : List Step) : ∀ r : Renderer,
    (r.render_state.ended = true → (runTrace r l).2 = 0) ∧ (runTrace r l).2 ≤ 1 := by
  induction l with
  | nil => intro r; simp [runTrace]
  | cons s rest ih =>
    intro r
    unfold runTrace
    cases hst : runStep r s with
    | none => simp
    | some pr =>
      obtain ⟨r1, e⟩ := pr
      have hse := runStep_ended r s r1 e hst
      have ihr := ih r1
      constructor
      · intro hend
        obtain ⟨h1, h2⟩ := hse.2 hend
        simp only [h2, if_false]
        simpa using ihr.1 h1
      · cases e with
        | false => simpa using ihr.2
        | true =>
          have h1 := (hse.1 rfl).2
          simp [ihr.1 h1]

/-- C3: over every step trace of a node from its construction, the ended
event is emitted at most once; and `ended` is terminal: once it is set,
every `process` call leaves the state untouched, outputs silence, emits
nothing, and returns `false`. -/
theorem c3_ended_at_most_once_and_terminal :
    (∀ (ls : LoopState) (l : List Step), (runTrace (initialRenderer ls) l).2 ≤ 1) ∧
    (∀ (r : Renderer) (p : ProcessParams), r.render_state.ended = true →
      process r p =
        .ok { state := r, output := silenceOutput, endedEvent := false, ret := false }) :=
  ⟨fun ls l => (runTrace_bound l (initialRenderer ls)).2,
   fun r p h => process_of_ended r p h⟩

/-- Witness for C3: a concrete two-step trace emits at most one event, and a
`process` call on a concrete ended node is silent, event-free and returns
`false`. -/
theorem c3_ended_at_most_once_and_terminal_witness :
    (runTrace (initialRenderer lsOff) [.msg (.setBuffer bOne), .proc pStd]).2 ≤ 1 ∧
    process rEnded pStd =
      .ok { state := rEnded, output := silenceOutput, endedEvent := false, ret := false } :=
  ⟨c3_ended_at_most_once_and_terminal.1 lsOff [.msg (.setBuffer bOne), .proc pStd],
   c3_ended_at_most_once_and_terminal.2 rEnded pStd rfl⟩

/-! ### C9 -/

theorem getD_replicate_zero (n i : ℕ) : (List.replicate n (0 : ℚ)).getD i 0 = 0 := by
  induction n generalizing i with
  | zero => simp [List.getD]
  | succ n ih =>
    cases i with
    | zero => simp [List.replicate]
    | succ j =>
      rw [List.replicate_succ, List.getD_cons_succ]
      exact ih j

theorem stickyStart_of_started (c : SlowCtx) (s : SlowState) (i : ℕ)
    (h : s.started = true) : stickyStart c s i = s.start_time := by
  simp [stickyStart, h]

theorem slowStep_inv (c : SlowCtx) (s s' : SlowState) (i : ℕ)
    (h : slowStep c s i = .ok s') (hlen : s.infos.length = i) (hinv : SlowInv c s) :
    SlowInv c s' ∧ s'.infos.length = i + 1 := by
  have old2 : ∀ (j : ℕ) (pi : PlaybackInfo), s.infos[j]? = some (some pi) →
      c.blockTime + (j : ℚ) * c.dt ≥ stickyStart c s i := by
    intro j pi hj
    cases hstarted : s.started with
    | true => rw [stickyStart_of_started c s i hstarted]; exact hinv.2 j pi hj
    | false =>
      exfalso
      have hmem : some pi ∈ s.infos := List.getElem?_mem hj
      exact absurd (hinv.1 hstarted _ hmem) (by simp)
  have tail_none : ∀ (j : ℕ) (pi : PlaybackInfo) (x : Option PlaybackInfo),
      (s.infos ++ [x])[j]? = some (some pi) →
      (j < s.infos.length ∧ s.infos[j]? = some (some pi)) ∨
        (j = s.infos.length ∧ x = some pi) := by
    intro j pi x hj
    rcases Nat.lt_or_ge j s.infos.length with hlt | hge
    · exact Or.inl ⟨hlt, by rwa [List.getElem?_append_left hlt] at hj⟩
    · rcases Nat.eq_or_lt_of_le hge with heq | hgt
      · refine Or.inr ⟨heq.symm, ?_⟩
        rw [← heq] at hj
        rw [List.getElem?_concat_length] at hj
        exact (Option.some.inj hj)
      · exfalso
        have hnone : (s.infos ++ [x])[j]? = none := by
          apply List.getElem?_eq_none
          simp only [List.length_append, List.length_singleton]
          omega
        rw [hnone] at hj
        exact absurd hj (by simp)
  simp only [slowStep] at h
  split at h
  · injection h with h
    subst h
    refine ⟨⟨?_, ?_⟩, by simp [hlen]⟩
    · intro hns oi hoi
      rcases List.mem_append.mp hoi with hm | hm
      · exact hinv.1 hns oi hm
      · simp only [List.mem_singleton] at hm
        exact hm
    · intro j pi hj
      rcases tail_none j pi none hj with ⟨_, hj'⟩ | ⟨_, hx⟩
      · exact old2 j pi hj'
      · exact absurd hx (by simp)
  · rename_i hskip
    split at h
    · exact absurd h (by simp)
    · rename_i btw heq
      injection h with h
      subst h
      push_neg at hskip
      refine ⟨⟨?_, ?_⟩, by simp [hlen]⟩
      · intro hns; exact absurd hns (by simp)
      · intro j pi hj
        rcases tail_none j pi _ hj with ⟨_, hj'⟩ | ⟨hje, _⟩
        · exact old2 j pi hj'
        · show c.blockTime + (j : ℚ) * c.dt ≥ stickyStart c s i
          rw [hje, hlen]
          exact hskip.1

theorem slowLoop_inv (c : SlowCtx) : ∀ (m n : ℕ) (s s' : SlowState),
    slowLoop c (List.range' n m) s = .ok s' → s.infos.length = n → SlowInv c s →
    SlowInv c s' ∧ s'.infos.length = n + m := by
  intro m
  induction m with
  | zero =>
    intro n s s' h hlen hinv
    simp only [List.range', slowLoop] at h
    injection h with h
    subst h
    exact ⟨hinv, by omega⟩
  | succ m ih =>
    intro n s s' h hlen hinv
    rw [List.range'_succ] at h
    unfold slowLoop at h
    cases hstep : slowStep c s n with
    | error d => rw [hstep] at h; exact absurd h (by simp)
    | ok s1 =>
      rw [hstep] at h
      obtain ⟨hinv1, hlen1⟩ := slowStep_inv c s s1 n hstep hlen hinv
      obtain ⟨hinv2, hlen2⟩ := ih (n + 1) s1 s' h hlen1 hinv1
      exact ⟨hinv2, by omega⟩

theorem fillChannel_zeros (il : Bool) (rr als ale sr : ℚ) (ch : List ℚ) :
    ∀ (infos : List (Option PlaybackInfo)) (out : List ℚ),
    fillChannel il rr als ale sr ch infos = .ok out →
    out.length = infos.length ∧ ∀ j : ℕ, infos[j]? = some none → out[j]? = some 0 := by
  intro infos
  induction infos with
  | nil =>
    intro out h
    simp only [fillChannel] at h
    injection h with h
    subst h
    simp
  | cons oi rest ih =>
    intro out h
    simp only [fillChannel] at h
    split at h
    · exact absurd h (by simp)
    · rename_i v hv
      split at h
      · exact absurd h (by simp)
      · rename_i vs hvs
        injection h with h
        subst h
        obtain ⟨hl, hz⟩ := ih vs hvs
        refine ⟨by simp [hl], ?_⟩
        intro j hj
        cases j with
        | zero =>
          simp only [List.getElem?_cons_zero, Option.some.injEq] at hj ⊢
          subst hj
          simp only [fillOne, Except.ok.injEq] at hv
          exact hv.symm
        | succ k =>
          simp only [List.getElem?_cons_succ] at hj ⊢
          exact hz k hj

theorem fillOutput_zeros (il : Bool) (rr als ale sr : ℚ)
    (infos : List (Option PlaybackInfo)) :
    ∀ (chs outs : List (List ℚ)),
    fillOutput il rr als ale sr infos chs = .ok outs →
    ∀ out ∈ outs, out.length = infos.length ∧
      ∀ j : ℕ, infos[j]? = some none → out[j]? = some 0 := by
  intro chs
  induction chs with
  | nil =>
    intro outs h out hout
    simp only [fillOutput] at h
    injection h with h
    subst h
    exact absurd hout (by simp)
  | cons ch rest ih =>
    intro outs h out hout
    simp only [fillOutput] at h
    split at h
    · exact absurd h (by simp)
    · rename_i outc houtc
      split at h
      · exact absurd h (by simp)
      · rename_i outsr houtsr
        injection h with h
        subst h
        rcases List.mem_cons.mp hout with hm | hm
        · subst hm
          exact fillChannel_zeros il rr als ale sr ch infos out houtc
        · exact ih outsr houtsr out hm

theorem fastTrack_ok_start (r : Renderer) (b : AudioBuffer) (p : ProcessParams)
    (core : CoreResult) (h : fastTrack r b p = .ok core) :
    core.start_time = startNormalized r p := by
  simp only [fastTrack] at h
  split at h
  · split at h
    · exact absurd h (by simp)
    · injection h with h
      rw [← h]
  · split at h
    · exact absurd h (by simp)
    · injection h with h
      rw [← h]

theorem slowTrack_ok_shape (r : Renderer) (b : AudioBuffer) (p : ProcessParams)
    (core : CoreResult) (h : slowTrack r b p = .ok core) :
    ∃ s1, slowLoop (slowCtx r b p) (List.range RENDER_QUANTUM_SIZE) (slowInit r p) = .ok s1 ∧
      core.start_time = s1.start_time ∧
      fillOutput r.loop_state.is_looping p.playback_rate (slowBounds r b).1
        (slowBounds r b).2 p.sample_rate s1.infos b.channels = .ok core.output := by
  simp only [slowTrack] at h
  split at h
  · exact absurd h (by simp)
  · rename_i s1 hs1
    split at h
    · exact absurd h (by simp)
    · rename_i outs houts
      injection h with h
      subst h
      exact ⟨s1, hs1, rfl, houts⟩

theorem alignedFlag_start_le (r : Renderer) (b : AudioBuffer) (p : ProcessParams)
    (hal : r.render_state.is_aligned = true → r.start_time ≤ p.current_time)
    (h : alignedFlag r b p = true) :
    startNormalized r p ≤ p.current_time := by
  simp only [alignedFlag] at h
  split_ifs at h with h4 h3 h2 h1
  · exact le_of_eq h1.1
  · unfold startNormalized
    split_ifs with hc
    · exact le_refl _
    · exact hal h

/-- C9: for all `t < start_time` the output at `t` is zero: in every
processed block (early exits, fast path and slow path alike), every output
slot whose time `block_time + i·dt` is earlier than the node's post-call
(snapped or sticky-adjusted) `start_time` holds the sample value 0. The
alignment hypothesis is the fast-path soundness invariant: `is_aligned` is
only ever set in a block whose `block_time` equals `start_time`, so an
aligned node's start time never lies in the future. -/
theorem c9_silent_before_start (r : Renderer) (p : ProcessParams)
    (hsr : 0 < p.sample_rate)
    (hal : r.render_state.is_aligned = true → r.start_time ≤ p.current_time) :
    silentBeforeStart (process r p) p := by
  intro res hres ch hch i hlt
  by_cases hend : r.render_state.ended = true
  · rw [process_of_ended r p hend] at hres
    injection hres with hres
    subst hres
    simp only [silenceOutput, List.mem_singleton] at hch
    subst hch
    exact getD_replicate_zero _ _
  · have hend' : r.render_state.ended = false := by
      revert hend; cases r.render_state.ended <;> simp
    by_cases hs : r.start_time ≥ nextBlockTime p
    · rw [process_of_pending r p hend' hs] at hres
      injection hres with hres
      subst hres
      simp only [silenceOutput, List.mem_singleton] at hch
      subst hch
      exact getD_replicate_zero _ _
    · cases hb : r.buffer with
      | none =>
        rw [process_of_noBuffer r p hend' hs hb] at hres
        injection hres with hres
        subst hres
        simp only [silenceOutput, List.mem_singleton] at hch
        subst hch
        exact getD_replicate_zero _ _
      | some b =>
        cases hcore : processCore r b p with
        | error d =>
          rw [process_main_error r p b d hend' hs hb hcore] at hres
          exact absurd hres (by simp)
        | ok core =>
          rw [process_main_eq r p b core hend' hs hb hcore] at hres
          injection hres with hres
          subst hres
          simp only at hch hlt ⊢
          by_cases haf : alignedFlag r b p = true
          · unfold processCore at hcore
            rw [if_pos haf] at hcore
            have h1 := fastTrack_ok_start r b p core hcore
            have h2 := alignedFlag_start_le r b p hal haf
            exfalso
            rw [h1] at hlt
            have hnn : (0 : ℚ) ≤ (i : ℚ) * (1 / p.sample_rate) :=
              mul_nonneg (Nat.cast_nonneg _) (by positivity)
            linarith
          · unfold processCore at hcore
            rw [if_neg haf] at hcore
            obtain ⟨s1, hloop, hst, hfill⟩ := slowTrack_ok_shape r b p core hcore
            have hinv0 : SlowInv (slowCtx r b p) (slowInit r p) := by
              constructor
              · intro _ oi hoi; simp [slowInit] at hoi
              · intro j pi hj; simp [slowInit] at hj
            rw [List.range_eq_range'] at hloop
            obtain ⟨hinv, hlen⟩ := slowLoop_inv (slowCtx r b p) RENDER_QUANTUM_SIZE 0
              (slowInit r p) s1 hloop (by simp [slowInit]) hinv0
            obtain ⟨hchlen, hchzero⟩ :=
              fillOutput_zeros r.loop_state.is_looping p.playback_rate (slowBounds r b).1
                (slowBounds r b).2 p.sample_rate s1.infos b.channels core.output hfill ch hch
            by_cases hi : i < s1.infos.length
            · obtain ⟨oi, hoi⟩ : ∃ oi, s1.infos[i]? = some oi :=
                ⟨s1.infos[i], List.getElem?_eq_getElem hi⟩

              cases oi with
              | some pi =>
                exfalso
                have hgt := hinv.2 i pi hoi
                rw [hst] at hlt
                simp only [slowCtx] at hgt
                linarith
              | none =>
                have hz := hchzero i hoi
                simp [List.getD_eq_getElem?_getD, hz]
            · have hle : ch.length ≤ i := by rw [hchlen]; omega
              simp [List.getD_eq_getElem?_getD, List.getElem?_eq_none hle]

/-- Witness for C9: the property applied to the concrete producing node of
the C2 witness (sample rate 48000, unaligned initial state). -/
theorem c9_silent_before_start_witness :
    (0 : ℚ) < pStd.sample_rate ∧ silentBeforeStart (process rProducing pStd) pStd :=
  ⟨by norm_num [pStd],
   c9_silent_before_start rProducing pStd (by norm_num [pStd])
     (fun hh => absurd hh (by decide))⟩

end WebAudioSrc
